import Mathlib

/-!
Shallow embedding of `src/Lab_2_4_LR2.py`, a linear-regression lab:
class `LinearRegressor` (methods `fit`, `fit_multiple`, `fit_gradient_descent`,
`predict`) plus the module-level functions `evaluate_regression` and
`one_hot_encode`.

Modelling conventions:
* numpy 1-D arrays are `List ℚ` (`Vec`), 2-D arrays are `List (List ℚ)`
  (`Mat`, a list of rows).  Machine floats are modelled by exact rationals.
* numpy operations that can raise (`dot` with misaligned shapes, broadcasting
  failures, out-of-range indexing, Python's `ZeroDivisionError`) are modelled
  in `Except String`; `Except.error` stands for a raised Python exception.
* numpy float division, which yields the non-finite values `nan`/`inf` when
  the denominator is zero instead of raising, is modelled by `npDivF` with
  `none` standing for a non-finite result.
* `np.linalg.pinv` (an SVD-based pseudo-inverse, irrational in general) is a
  parameter `pinv : Mat → Mat` of the functions that use it.
* `np.random.rand`, used only to initialise gradient descent, is a parameter:
  `rand0 : ℚ` models `np.random.rand()` and `rand : ℕ → ℚ` models the entries
  of `np.random.rand(n)`.
* A Python method that mutates `self` and returns `None` is modelled as a
  function returning `LinearRegressor × Except String Unit`: the first
  component is the state of `self` after the call (including mutations that
  happened before an exception was raised), the second records normal return
  (`.ok ()`) or a raised exception.
-/

namespace Lab24

abbrev Vec := List ℚ

abbrev Mat := List (List ℚ)

/-- Number of columns of a (rectangular) numpy 2-D array given as a list of
rows: the length of the first row, `0` for an empty array. -/
def ncols {α : Type _} (M : List (List α)) : ℕ :=
  (M.head?.map List.length).getD 0

/-- `M` is rectangular with `n` columns: every row has length `n`. -/
def IsRect {α : Type _} (M : List (List α)) (n : ℕ) : Prop :=
  ∀ r ∈ M, r.length = n

instance {α : Type _} (M : List (List α)) (n : ℕ) : Decidable (IsRect M n) :=
  List.decidableBAll _ M

/-- Dot product of two equal-length vectors (`np.dot` on aligned 1-D data). -/
def dotL (a b : Vec) : ℚ :=
  (List.zipWith (· * ·) a b).sum

/-- `M.T` for a rectangular matrix: column `j` of `M` becomes row `j`. -/
def transpose (M : Mat) : Mat :=
  (List.range (ncols M)).map (fun j => M.map (fun r => r.getD j 0))

/-- `A.dot(v)` for a 2-D `A` and 1-D `v`: numpy raises `ValueError`
("shapes not aligned") unless the rows of `A` have length `v.length`. -/
def npDotMV (A : Mat) (v : Vec) : Except String Vec :=
  if ∀ r ∈ A, r.length = v.length then
    .ok (A.map (fun r => dotL r v))
  else
    .error "shapes not aligned"

/-- `P.dot(Q)` for 2-D `P`, `Q`: numpy raises unless the rows of `P` have
length `Q.length` (the inner dimensions agree). -/
def npMatMul (P Q : Mat) : Except String Mat :=
  if ∀ r ∈ P, r.length = Q.length then
    .ok (P.map (fun p => (transpose Q).map (fun c => dotL p c)))
  else
    .error "shapes not aligned"

/-- Elementwise `a - b` on 1-D arrays with numpy broadcasting: equal lengths
subtract pointwise, a length-1 operand is stretched to the other's length,
anything else raises ("operands could not be broadcast together"). -/
def npSub (a b : Vec) : Except String Vec :=
  if a.length = b.length then
    .ok (List.zipWith (· - ·) a b)
  else if b.length = 1 then
    .ok (a.map (fun x => x - b.headD 0))
  else if a.length = 1 then
    .ok (b.map (fun x => a.headD 0 - x))
  else
    .error "operands could not be broadcast together"

/-- In-place `a -= g` on 1-D arrays: numpy requires `g` broadcastable to the
shape of `a` (so `g` of length 1 stretches, but `a` may not stretch). -/
def npSubIn (a g : Vec) : Except String Vec :=
  if a.length = g.length then
    .ok (List.zipWith (· - ·) a g)
  else if g.length = 1 then
    .ok (a.map (fun x => x - g.headD 0))
  else
    .error "non-broadcastable output operand"

/-- numpy float division: `none` models the non-finite result (`nan` or
`±inf`) produced when the denominator is zero. -/
def npDivF (a b : ℚ) : Option ℚ :=
  if b = 0 then none else some (a / b)

/-- `np.mean` on a nonempty vector.  (numpy returns `nan` on an empty vector;
all theorems below only apply `mean` to nonempty data.) -/
def mean (v : Vec) : ℚ :=
  v.sum / (v.length : ℚ)

/-- Whether an `Except` models a raised Python exception. -/
def isErr {α : Type _} : Except String α → Bool
  | .error _ => true
  | .ok _ => false

/-- The mutable state of a `LinearRegressor` instance.  `__init__` gives both
fields the value `None` (`none`); a successful fit stores the learned
parameters. -/
structure LinearRegressor where
  coefficients : Option Vec
  intercept : Option ℚ
deriving DecidableEq, Repr

/-- `LinearRegressor()`: both parameters start as `None`. -/
def LinearRegressor.init : LinearRegressor :=
  { coefficients := none, intercept := none }

/-- An argument that may be a 1-D or a 2-D numpy array (the code branches on
`np.ndim(X) == 1`). -/
inductive NpArray where
  | vec : Vec → NpArray
  | mat : Mat → NpArray

/-- `predict(self, X)` from the source:
raises `ValueError("Model is not yet fitted")` when either parameter is
`None`; on 1-D `X` returns `self.intercept + self.coefficients[0] * X`
(raising `IndexError` when the coefficient vector is empty); on 2-D `X`
prepends a column of ones and computes `X_b.dot(np.r_[intercept,
coefficients])`. -/
def predict (s : LinearRegressor) (X : NpArray) : Except String Vec :=
  match s.coefficients, s.intercept with
  | some cs, some b =>
    match X with
    | .vec v =>
      match cs with
      | [] => .error "index 0 is out of bounds"
      | c0 :: _ => .ok (v.map (fun x => b + c0 * x))
    | .mat rows =>
      let X_b := rows.map (fun r => 1 :: r)
      npDotMV X_b (b :: cs)
  | _, _ => .error "Model is not yet fitted"

/-- `fit_multiple(self, X, y)` from the source:
`X_b = np.c_[np.ones((m,1)), X]`, then
`theta_best = np.linalg.pinv(X_b.T.dot(X_b)).dot(X_b.T).dot(y)`, then
`self.intercept = theta_best[0]` (an `IndexError` when `theta_best` is
empty) and `self.coefficients = theta_best[1:]`.  Returns the new
`(intercept, coefficients)` pair. -/
def fit_multiple (pinv : Mat → Mat) (X : Mat) (y : Vec) :
    Except String (ℚ × Vec) := do
  let X_b := X.map (fun r => 1 :: r)
  let S ← npMatMul (transpose X_b) X_b
  let B ← npMatMul (pinv S) (transpose X_b)
  let theta_best ← npDotMV B y
  match theta_best with
  | [] => .error "index 0 is out of bounds"
  | t0 :: rest => .ok (t0, rest)

/-- One pass of the `for epoch in range(iterations)` body of
`fit_gradient_descent`, acting on the current `(intercept, coefficients)`:
`predictions = self.predict(X)`; `error = predictions - y`;
`gradient_coefficients = (2 * learning_rate / m) * X.T.dot(error)`;
`gradient_intercept = (2 * learning_rate / m) * np.sum(error)`;
`self.intercept -= gradient_intercept`;
`self.coefficients -= gradient_coefficients`.
Python evaluates `2 * learning_rate / m` before `X.T.dot(error)`, so with
`m = 0` a `ZeroDivisionError` is raised at that point. -/
def gdStep (X : Mat) (y : Vec) (learning_rate : ℚ) (b : ℚ) (cs : Vec) :
    Except String (ℚ × Vec) := do
  let predictions ← predict ⟨some cs, some b⟩ (.mat X)
  let error ← npSub predictions y
  if X.length = 0 then
    throw "division by zero"
  let xtd ← npDotMV (transpose X) error
  let gradient_coefficients :=
    xtd.map (fun g => 2 * learning_rate / (X.length : ℚ) * g)
  let gradient_intercept :=
    2 * learning_rate / (X.length : ℚ) * error.sum
  let cs2 ← npSubIn cs gradient_coefficients
  pure (b - gradient_intercept, cs2)

/-- The loop `for epoch in range(iterations)` of `fit_gradient_descent`,
with the remaining iteration count as fuel.  A raised exception leaves
`self` holding the parameters reached so far. -/
def gdLoop (X : Mat) (y : Vec) (learning_rate : ℚ) :
    ℕ → ℚ × Vec → (ℚ × Vec) × Except String Unit
  | 0, p => (p, .ok ())
  | k + 1, p =>
    match gdStep X y learning_rate p.1 p.2 with
    | .ok p2 => gdLoop X y learning_rate k p2
    | .error e => (p, .error e)

/-- `fit_gradient_descent(self, X, y, learning_rate, iterations)` from the
source: `m, n = X.shape`;
`self.coefficients = np.random.rand(n) * 0.01`;
`self.intercept = np.random.rand() * 0.01`;
then the epoch loop.  The method also appends to the local dicts `history`
and `training_history`, prints the MSE every 10 epochs and plots both
traces; those locals never escape: the method returns `None` and assigns no
attribute other than `coefficients` and `intercept`, which is why the
observable result is exactly the `LinearRegressor` state. -/
def fit_gradient_descent (rand0 : ℚ) (rand : ℕ → ℚ) (_self : LinearRegressor)
    (X : Mat) (y : Vec) (learning_rate : ℚ) (iterations : ℕ) :
    LinearRegressor × Except String Unit :=
  let n := ncols X
  let cs0 := (List.range n).map (fun j => rand j * (1 / 100))
  let b0 := rand0 * (1 / 100)
  let r := gdLoop X y learning_rate iterations (b0, cs0)
  ({ coefficients := some r.1.2, intercept := some r.1.1 }, r.2)

/-- `if np.ndim(X) == 1: X = X.reshape(-1, 1)` — a 1-D argument becomes a
single-column matrix. -/
def reshapeInput (X : NpArray) : Mat :=
  match X with
  | .vec v => v.map (fun x => [x])
  | .mat M => M

/-- `fit(self, X, y, method, learning_rate, iterations)` from the source:
first validates `method` against `["least_squares", "gradient_descent"]`
(raising `ValueError` otherwise, before anything else happens), then
reshapes a 1-D `X`, then dispatches to `fit_multiple` or
`fit_gradient_descent`.  Returns the post-call state of `self` together
with the call's outcome. -/
def fit (pinv : Mat → Mat) (rand0 : ℚ) (rand : ℕ → ℚ)
    (self : LinearRegressor) (X : NpArray) (y : Vec) (method : String)
    (learning_rate : ℚ) (iterations : ℕ) :
    LinearRegressor × Except String Unit :=
  if method ∉ ["least_squares", "gradient_descent"] then
    (self, .error s!"Method {method} not available for training linear regression.")
  else
    let X2 := reshapeInput X
    if method = "least_squares" then
      match fit_multiple pinv X2 y with
      | .ok (b, cs) => ({ coefficients := some cs, intercept := some b }, .ok ())
      | .error e => (self, .error e)
    else
      fit_gradient_descent rand0 rand self X2 y learning_rate iterations

/-- The dictionary returned by `evaluate_regression`.  The source returns
`RMSE = np.sqrt(np.mean((y_true - y_pred) ** 2))`; a square root of a
rational is irrational in general, so the embedding carries the radicand
`RMSE_sq` and the theorems speak of `Real.sqrt RMSE_sq`.  `R2 = none`
models a non-finite value (`nan`/`inf`) arising from division by a zero
`ss_tot`. -/
structure EvalMetrics where
  R2 : Option ℚ
  RMSE_sq : ℚ
  MAE : ℚ
deriving DecidableEq, Repr

/-- The local `ss_tot = np.sum((y_true - np.mean(y_true)) * (y_true -
np.mean(y_true)))` of `evaluate_regression`. -/
def ss_tot (y_true : Vec) : ℚ :=
  (y_true.map (fun t => (t - mean y_true) * (t - mean y_true))).sum

/-- `evaluate_regression(y_true, y_pred)` from the source:
`ss_res = np.sum((y_true - y_pred) * (y_true - y_pred))`,
`r_squared = 1 - ss_res / ss_tot` (float division: non-finite when
`ss_tot = 0`), `rmse = np.sqrt(np.mean((y_true - y_pred) ** 2))` (carried
as its radicand `RMSE_sq`), `mae = np.mean(np.abs(y_true - y_pred))`;
returns `{"R2": ..., "RMSE": ..., "MAE": ...}`. -/
def evaluate_regression (y_true y_pred : Vec) : Except String EvalMetrics := do
  let d ← npSub y_true y_pred
  let ss_res := (d.map (fun x => x * x)).sum
  let r_squared := (npDivF ss_res (ss_tot y_true)).map (fun q => 1 - q)
  let rmse_sq := mean (d.map (fun x => x * x))
  let mae := mean (d.map (fun x => |x|))
  pure { R2 := r_squared, RMSE_sq := rmse_sq, MAE := mae }

/-- Insert `x` into a sorted duplicate-free list, keeping it sorted and
duplicate-free. -/
def insertSorted {α : Type _} [LinearOrder α] (x : α) : List α → List α
  | [] => [x]
  | h :: t =>
    if x < h then x :: h :: t
    else if x = h then h :: t
    else h :: insertSorted x t

/-- `np.unique`: the sorted list of distinct values of a 1-D array. -/
def npUnique {α : Type _} [LinearOrder α] (l : List α) : List α :=
  l.foldr insertSorted []

/-- `X[:, i]`: column `i` of a matrix of values of type `α`. -/
def columnOf {α : Type _} [Inhabited α] (X : List (List α)) (i : ℕ) : List α :=
  X.map (fun r => r.getD i default)

/-- `np.column_stack(cols)`: stack a list of equal-length 1-D columns into a
2-D array row-wise; row `r` collects entry `r` of every column.  (numpy
raises on an empty list of columns; the claims below never hit that case.) -/
def np_column_stack (cols : Mat) : Mat :=
  (List.range ((cols.head?.map List.length).getD 0)).map
    (fun r => cols.map (fun c => c.getD r 0))

/-- `one_hot_encode(X, categorical_indices, drop_first)` from the source.
Entries of `X` have any ordered type `α` (numpy string/object dtype);
`toNum : α → ℚ` models the `.astype(float)` cast.  For each column index
`i` in `range(X.shape[1])`: a categorical column contributes one indicator
column per value of `np.unique(X[:, i])` (dropping the first, i.e.
smallest, when `drop_first`), a non-categorical column contributes itself
cast to float; the collected columns are `np.column_stack`-ed. -/
def one_hot_encode {α : Type _} [Inhabited α] [LinearOrder α] (toNum : α → ℚ)
    (X : List (List α)) (categorical_indices : List ℕ) (drop_first : Bool) :
    Mat :=
  let X_transformed := (List.range (ncols X)).flatMap (fun i =>
    if i ∈ categorical_indices then
      let categories := npUnique (columnOf X i)
      let categories := if drop_first then categories.tail else categories
      categories.map (fun category =>
        (columnOf X i).map (fun v => if v = category then (1 : ℚ) else 0))
    else
      [(columnOf X i).map toNum])
  np_column_stack X_transformed

section ClaimSide

/-!
Definitions below this point are written from the *words of the spec/claims*
(not from the source); each theorem that uses one compares it with the
source-derived definitions above.
-/

/-- Unchecked matrix product, for stating the normal-equation formula of
claim C1 (`θ = pinv(XᵇᵀXᵇ) · Xᵇᵀ · y`) with total operations. -/
def matMulU (P Q : Mat) : Mat :=
  P.map (fun p => (transpose Q).map (fun c => dotL p c))

/-- One gradient-descent epoch exactly as claim C2 words it: with `N` the
row count of `X`, residual `= predictions - y`, coefficient gradient
`= (2 * learning_rate / N) * Xᵀ · residual`, intercept gradient
`= (2 * learning_rate / N) * sum(residual)`, and the parameters updated by
plain subtraction of these gradients. -/
def gdStepClaim (X : Mat) (y : Vec) (learning_rate : ℚ) (p : ℚ × Vec) :
    ℚ × Vec :=
  let residual :=
    List.zipWith (· - ·) (X.map (fun r => p.1 + dotL r p.2)) y
  let coefficient_gradient :=
    (transpose X).map (fun c => 2 * learning_rate / (X.length : ℚ) * dotL c residual)
  let intercept_gradient :=
    2 * learning_rate / (X.length : ℚ) * residual.sum
  (p.1 - intercept_gradient, List.zipWith (· - ·) p.2 coefficient_gradient)

/-- Unchecked matrix–vector product, companion of `matMulU` for stating the
claim C1 formula. -/
def mulVecU (A : Mat) (v : Vec) : Vec :=
  A.map (fun r => dotL r v)

/-- The Gram matrix `X_bᵀ · X_b` of the bias-augmented design matrix, as
claim C1 words it (`X_b` is `X` with a leading column of ones). -/
def designGram (X : Mat) : Mat :=
  let X_b := X.map (fun r => 1 :: r)
  matMulU (transpose X_b) X_b

/-- The normal-equation solution exactly as claim C1 words it:
`θ = pinv(X_bᵀ · X_b) · X_bᵀ · y` with `X_b` the ones-augmented `X`. -/
def normalEquationTheta (pinv : Mat → Mat) (X : Mat) (y : Vec) : Vec :=
  let X_b := X.map (fun r => 1 :: r)
  mulVecU (matMulU (pinv (designGram X)) (transpose X_b)) y

/-- `one_hot_encode` as the spec words it: for each column index in order,
a categorical column is replaced by the block of 1.0/0.0 indicator columns
of its sorted distinct values (minus the smallest when `drop_first`), a
non-categorical column is emitted cast to numeric; the blocks are
concatenated in column order, leaving them interleaved at their original
positions. -/
def one_hot_encode_spec {α : Type _} [Inhabited α] [LinearOrder α]
    (toNum : α → ℚ) (X : List (List α)) (categorical_indices : List ℕ)
    (drop_first : Bool) : Mat :=
  let block := fun (i : ℕ) =>
    if i ∈ categorical_indices then
      let cats := npUnique (columnOf X i)
      (if drop_first then cats.tail else cats).map (fun c =>
        (columnOf X i).map (fun v => if v = c then (1 : ℚ) else 0))
    else
      [(columnOf X i).map toNum]
  np_column_stack (((List.range (ncols X)).map block).flatten)

end ClaimSide

/-! ### Shape lemmas for the numpy primitives -/

theorem mem_transpose_length {M : Mat} {r : Vec} (h : r ∈ transpose M) :
    r.length = M.length := by
  simp only [transpose, List.mem_map] at h
  obtain ⟨j, -, rfl⟩ := h
  simp

theorem length_transpose (M : Mat) : (transpose M).length = ncols M := by
  simp [transpose]

theorem ncols_eq_of_rect {X : Mat} {n : ℕ} (hrect : IsRect X n) (hX : X ≠ []) :
    ncols X = n := by
  cases X with
  | nil => exact absurd rfl hX
  | cons r t => exact hrect r (List.mem_cons_self r t)

theorem ncols_mapcons {X : Mat} (hX : X ≠ []) :
    ncols (X.map (fun r => (1 : ℚ) :: r)) = ncols X + 1 := by
  cases X with
  | nil => exact absurd rfl hX
  | cons r t => simp [ncols]

theorem ncols_transpose {M : Mat} (h : 0 < ncols M) :
    ncols (transpose M) = M.length := by
  obtain ⟨k, hk⟩ := Nat.exists_eq_add_of_lt h
  rw [transpose, hk]
  simp only [Nat.zero_add, List.range_succ_eq_map, List.map_cons]
  simp [ncols]

theorem ncols_transpose_mapcons (X : Mat) :
    ncols (transpose (X.map (fun r => (1 : ℚ) :: r))) = X.length := by
  cases X with
  | nil => simp [transpose, ncols]
  | cons r t =>
    rw [ncols_transpose (by simp [ncols])]
    simp

theorem npMatMul_ok {P Q : Mat} (h : ∀ r ∈ P, r.length = Q.length) :
    npMatMul P Q = .ok (matMulU P Q) := by
  unfold npMatMul; rw [if_pos h]; rfl

theorem npMatMul_transpose_self (M : Mat) :
    npMatMul (transpose M) M = .ok (matMulU (transpose M) M) :=
  npMatMul_ok (fun _ hr => mem_transpose_length hr)

theorem npDotMV_ok {A : Mat} {v : Vec} (h : ∀ r ∈ A, r.length = v.length) :
    npDotMV A v = .ok (A.map (fun r => dotL r v)) := by
  unfold npDotMV; rw [if_pos h]

theorem npDotMV_err {A : Mat} {v : Vec} (h : ¬ ∀ r ∈ A, r.length = v.length) :
    npDotMV A v = .error "shapes not aligned" := by
  unfold npDotMV; rw [if_neg h]

theorem dotL_cons (a b : ℚ) (as bs : Vec) :
    dotL (a :: as) (b :: bs) = a * b + dotL as bs := by
  simp [dotL]

theorem zipWith_sub_self (v : Vec) :
    List.zipWith (· - ·) v v = v.map (fun _ => 0) := by
  induction v with
  | nil => rfl
  | cons x t ih => simp [ih]

theorem sum_map_zero (v : List ℚ) : (v.map (fun _ => (0 : ℚ))).sum = 0 := by
  induction v with
  | nil => rfl
  | cons x t ih => simp [ih]

theorem predict_mat_ok {b : ℚ} {cs : Vec} {rows : Mat}
    (h : ∀ r ∈ rows, r.length = cs.length) :
    predict ⟨some cs, some b⟩ (.mat rows) =
      .ok (rows.map (fun r => b + dotL r cs)) := by
  show npDotMV (rows.map (fun r => 1 :: r)) (b :: cs) = _
  rw [npDotMV_ok ?_]
  · rw [List.map_map]
    refine congrArg _ (List.map_congr_left fun r _ => ?_)
    simp [dotL_cons]
  · intro r hr
    simp only [List.mem_map] at hr
    obtain ⟨r0, hr0, rfl⟩ := hr
    simp [h r0 hr0]

theorem ok_bind {α β : Type _} (a : α) (f : α → Except String β) :
    (Except.ok a >>= f) = f a := rfl

theorem pure_eq_ok {α : Type _} (a : α) :
    (pure a : Except String α) = .ok a := rfl

theorem error_bind {α β : Type _} (e : String) (f : α → Except String β) :
    ((Except.error e : Except String α) >>= f) = .error e := rfl

/-! ### Claim theorems -/

/-- Concrete stand-in for `np.linalg.pinv` used in closed witness statements
(the claim theorems hold for every `pinv`). -/
def pinvId : Mat → Mat := fun M => M

/-- Concrete stand-in for the `np.random.rand` samples used in closed
witness statements. -/
def randZ : ℕ → ℚ := fun _ => 0

/-- Claim C9: on an estimator whose parameters are still undefined (no fit
has succeeded and set them), every `predict` call fails with the
NotFitted error `ValueError("Model is not yet fitted")`. -/
theorem claim_C9 (s : LinearRegressor) (X : NpArray)
    (h : s.coefficients = none ∨ s.intercept = none) :
    predict s X = .error "Model is not yet fitted" := by
  obtain ⟨cs, b⟩ := s
  rcases h with h | h <;> simp only at h <;> subst h
  · rfl
  · cases cs <;> rfl

/-- Witness for C9: a freshly constructed `LinearRegressor()` rejects
`predict`. -/
theorem claim_C9_witness :
    predict LinearRegressor.init (.vec [1, 2]) =
      .error "Model is not yet fitted" :=
  claim_C9 LinearRegressor.init (.vec [1, 2]) (Or.inl rfl)

/-- Claim C10: `fit` with an invalid method string is atomic — the
`ValueError` is raised before any dispatch or reshaping, so the estimator
state after the call (whether unfitted or previously fitted) is exactly the
state before it. -/
theorem claim_C10 (pinv : Mat → Mat) (rand0 : ℚ) (rand : ℕ → ℚ)
    (self : LinearRegressor) (X : NpArray) (y : Vec) (method : String)
    (learning_rate : ℚ) (iterations : ℕ)
    (h : method ∉ ["least_squares", "gradient_descent"]) :
    (fit pinv rand0 rand self X y method learning_rate iterations).1 = self ∧
    isErr (fit pinv rand0 rand self X y method learning_rate iterations).2
      = true := by
  unfold fit
  rw [if_pos h]
  exact ⟨rfl, rfl⟩

/-- Witness for C10: a previously fitted estimator is untouched by
`fit(..., method="bogus")`. -/
theorem claim_C10_witness :
    (fit pinvId 0 randZ ⟨some [7], some 3⟩ (.mat [[1]]) [0] "bogus"
        (1 / 100) 1).1 = (⟨some [7], some 3⟩ : LinearRegressor) ∧
    isErr (fit pinvId 0 randZ ⟨some [7], some 3⟩ (.mat [[1]]) [0] "bogus"
        (1 / 100) 1).2 = true :=
  claim_C10 pinvId 0 randZ ⟨some [7], some 3⟩ (.mat [[1]]) [0] "bogus"
    (1 / 100) 1 (by decide)

/-- Claim C8: `fit` fails with the InvalidArgument error
`ValueError("Method ... not available for training linear regression.")`
for every method string other than `"least_squares"` and
`"gradient_descent"`, and for those two values dispatches to
`fit_multiple` respectively `fit_gradient_descent` (after reshaping a 1-D
`X` to a single column). -/
theorem claim_C8 (pinv : Mat → Mat) (rand0 : ℚ) (rand : ℕ → ℚ)
    (self : LinearRegressor) (X : NpArray) (y : Vec) (method : String)
    (learning_rate : ℚ) (iterations : ℕ) :
    (method ∉ ["least_squares", "gradient_descent"] →
      fit pinv rand0 rand self X y method learning_rate iterations =
        (self, .error
          s!"Method {method} not available for training linear regression.")) ∧
    fit pinv rand0 rand self X y "least_squares" learning_rate iterations =
      (match fit_multiple pinv (reshapeInput X) y with
        | .ok (b, cs) => ({ coefficients := some cs, intercept := some b }, .ok ())
        | .error e => (self, .error e)) ∧
    fit pinv rand0 rand self X y "gradient_descent" learning_rate iterations =
      fit_gradient_descent rand0 rand self (reshapeInput X) y
        learning_rate iterations := by
  refine ⟨fun h => ?_, ?_, ?_⟩
  · unfold fit; rw [if_pos h]
  · unfold fit
    rw [if_neg (by decide :
      ¬ ("least_squares" : String) ∉ ["least_squares", "gradient_descent"])]
    rw [if_pos rfl]
  · unfold fit
    rw [if_neg (by decide :
      ¬ ("gradient_descent" : String) ∉ ["least_squares", "gradient_descent"])]
    rw [if_neg (by decide : ¬ ("gradient_descent" : String) = "least_squares")]

/-- Witness for C8: the invalid-method branch at the concrete method
`"bogus"`. -/
theorem claim_C8_witness :
    fit pinvId 0 randZ LinearRegressor.init (.mat [[1]]) [0] "bogus"
        (1 / 100) 1 =
      (LinearRegressor.init,
        .error "Method bogus not available for training linear regression.") :=
  (claim_C8 pinvId 0 randZ LinearRegressor.init (.mat [[1]]) [0] "bogus"
    (1 / 100) 1).1 (by decide)

/-- Claim C7: on a fitted model, `predict` with 1-D input returns
`intercept + coefficients[0] * X` elementwise, using only the first
coefficient however many were fit; with 2-D input it prepends a bias column
of ones and returns the per-row inner product with
`[intercept, coefficients]`, a vector whose length is the row count. -/
theorem claim_C7 (b : ℚ) (cs : Vec) (v : Vec) (rows : Mat) (n : ℕ)
    (hcs : cs ≠ []) (hrect : IsRect rows n) (hn : n = cs.length) :
    predict ⟨some cs, some b⟩ (.vec v) =
      .ok (v.map (fun x => b + cs.headD 0 * x)) ∧
    predict ⟨some cs, some b⟩ (.mat rows) =
      .ok (rows.map (fun r => dotL (1 :: r) (b :: cs))) ∧
    (rows.map (fun r => dotL (1 :: r) (b :: cs))).length = rows.length := by
  refine ⟨?_, ?_, by simp⟩
  · cases cs with
    | nil => exact absurd rfl hcs
    | cons c0 rest => rfl
  · rw [predict_mat_ok (fun r hr => (hrect r hr).trans hn)]
    refine congrArg _ (List.map_congr_left fun r _ => ?_)
    simp [dotL_cons]

/-- Witness for C7: both `predict` paths at a concrete fitted model with two
coefficients. -/
theorem claim_C7_witness :
    predict ⟨some [2, 3], some 1⟩ (.vec [1, 2]) =
      .ok ([1, 2].map (fun x => 1 + ([2, 3] : Vec).headD 0 * x)) ∧
    predict ⟨some [2, 3], some 1⟩ (.mat [[4, 5]]) =
      .ok ([[4, 5]].map (fun r => dotL (1 :: r) (1 :: [2, 3]))) ∧
    (([[4, 5]] : Mat).map (fun r => dotL (1 :: r) (1 :: [2, 3]))).length =
      ([[4, 5]] : Mat).length :=
  claim_C7 1 [2, 3] [1, 2] [[4, 5]] 2 (by decide) (by decide) (by decide)

/-- Claim C1: `fit_multiple` computes the parameters by the normal equation:
it prepends a column of ones to `X` and solves
`θ = pinv(X_bᵀ · X_b) · X_bᵀ · y` with the pseudo-inverse (here an
arbitrary total function, as `np.linalg.pinv` never fails even on
singular/rank-deficient input), setting `intercept = θ[0]` and
`coefficients = θ[1:]`, deterministically and without iteration (the result
is a pure function of `pinv`, `X` and `y`).  The two hypotheses on
`pinv`'s output record the shape `np.linalg.pinv` guarantees: a nonempty
matrix whose rows have the Gram matrix's width `n + 1`. -/
theorem claim_C1 (pinv : Mat → Mat) (X : Mat) (y : Vec) (n : ℕ)
    (hrect : IsRect X n) (hX : X ≠ []) (hy : y.length = X.length)
    (hpr : IsRect (pinv (designGram X)) (n + 1))
    (hpn : pinv (designGram X) ≠ []) :
    fit_multiple pinv X y =
      .ok ((normalEquationTheta pinv X y).headD 0,
           (normalEquationTheta pinv X y).tail) := by
  have hXb : ncols (X.map (fun r => (1 : ℚ) :: r)) = n + 1 := by
    rw [ncols_mapcons hX, ncols_eq_of_rect hrect hX]
  have h2 : ∀ r ∈ pinv (designGram X),
      r.length = (transpose (X.map fun r => (1 : ℚ) :: r)).length := by
    intro r hr
    rw [length_transpose, hXb]
    exact hpr r hr
  have h3 : ∀ r ∈ matMulU (pinv (designGram X))
      (transpose (X.map fun r => (1 : ℚ) :: r)), r.length = y.length := by
    intro r hr
    simp only [matMulU, List.mem_map] at hr
    obtain ⟨p, -, rfl⟩ := hr
    rw [List.length_map, length_transpose, ncols_transpose_mapcons, hy]
  rcases hθ : normalEquationTheta pinv X y with _ | ⟨t0, rest⟩
  · exfalso
    apply hpn
    simpa [normalEquationTheta, mulVecU, matMulU] using hθ
  · simp only [fit_multiple]
    rw [npMatMul_transpose_self, ok_bind]
    rw [show matMulU (transpose (X.map fun r => (1 : ℚ) :: r))
          (X.map fun r => (1 : ℚ) :: r) = designGram X from rfl]
    rw [npMatMul_ok h2, ok_bind, npDotMV_ok h3, ok_bind]
    rw [show (matMulU (pinv (designGram X))
          (transpose (X.map fun r => (1 : ℚ) :: r))).map (fun r => dotL r y) =
        normalEquationTheta pinv X y from rfl]
    rw [hθ]
    rfl

/-- Witness for C1: the normal-equation shape at a concrete 1×1 design
matrix and a concrete (constant-zero) pseudo-inverse stand-in. -/
theorem claim_C1_witness :
    fit_multiple (fun _ => [[0, 0], [0, 0]]) [[1]] [2] =
      .ok ((normalEquationTheta (fun _ => [[0, 0], [0, 0]]) [[1]] [2]).headD 0,
           (normalEquationTheta (fun _ => [[0, 0], [0, 0]]) [[1]] [2]).tail) :=
  claim_C1 (fun _ => [[0, 0], [0, 0]]) [[1]] [2] 1 (by decide) (by decide)
    (by decide) (by decide) (by decide)

theorem npSub_eq_len {a b : Vec} (h : a.length = b.length) :
    npSub a b = .ok (List.zipWith (· - ·) a b) := by
  unfold npSub; rw [if_pos h]

theorem npSubIn_eq_len {a g : Vec} (h : a.length = g.length) :
    npSubIn a g = .ok (List.zipWith (· - ·) a g) := by
  unfold npSubIn; rw [if_pos h]

/-- On well-shaped data, one epoch body of the source's gradient-descent
loop computes exactly the update claimed in C2. -/
theorem gdStep_ok {X : Mat} {y : Vec} {lr : ℚ} {n : ℕ} (b : ℚ) (cs : Vec)
    (hrect : IsRect X n) (hX : X ≠ []) (hy : y.length = X.length)
    (hcs : cs.length = n) :
    gdStep X y lr b cs = .ok (gdStepClaim X y lr (b, cs)) := by
  have hpred : ∀ r ∈ X, r.length = cs.length :=
    fun r hr => (hrect r hr).trans hcs.symm
  have h0 : ¬ X.length = 0 := fun h => hX (List.length_eq_zero.mp h)
  have hres : (List.zipWith (· - ·) (X.map (fun r => b + dotL r cs)) y).length
      = X.length := by
    simp [hy]
  simp only [gdStep]
  rw [predict_mat_ok hpred, ok_bind]
  rw [npSub_eq_len (by simp [hy]), ok_bind]
  rw [if_neg h0]
  rw [npDotMV_ok (fun r hr => by rw [mem_transpose_length hr, hres]), ok_bind]
  rw [npSubIn_eq_len (by
    simp [length_transpose, ncols_eq_of_rect hrect hX, hcs])]
  rw [ok_bind]
  simp only [gdStepClaim, List.map_map]
  rfl

/-- The claimed update preserves the coefficient-vector length. -/
theorem gdStepClaim_snd_length {X : Mat} {y : Vec} {lr : ℚ} {n : ℕ}
    (p : ℚ × Vec) (hrect : IsRect X n) (hX : X ≠ []) (hp : p.2.length = n) :
    (gdStepClaim X y lr p).2.length = n := by
  simp [gdStepClaim, length_transpose, ncols_eq_of_rect hrect hX, hp]

/-- On well-shaped data the source's epoch loop runs its full fuel and
equals `iterations`-fold iteration of the claimed update. -/
theorem gdLoop_eq_iterate {X : Mat} {y : Vec} {lr : ℚ} {n : ℕ}
    (hrect : IsRect X n) (hX : X ≠ []) (hy : y.length = X.length) :
    ∀ (it : ℕ) (b : ℚ) (cs : Vec), cs.length = n →
      gdLoop X y lr it (b, cs) =
        ((gdStepClaim X y lr)^[it] (b, cs), .ok ()) := by
  intro it
  induction it with
  | zero => intro b cs _; rfl
  | succ k ih =>
    intro b cs hcs
    have hlen := @gdStepClaim_snd_length X y lr n (b, cs) hrect hX hcs
    simp only [gdLoop]
    rw [gdStep_ok b cs hrect hX hy hcs]
    show gdLoop X y lr k (gdStepClaim X y lr (b, cs)) = _
    rcases hp2 : gdStepClaim X y lr (b, cs) with ⟨b2, cs2⟩
    rw [hp2] at hlen
    rw [Function.iterate_succ_apply, hp2]
    exact ih b2 cs2 hlen

/-- Claim C2: every call to `fit_gradient_descent` on well-shaped data runs
exactly `iterations` epochs — no early stop, no convergence check — each
epoch computing `residual = predictions - y`, the coefficient gradient
`(2 * learning_rate / N) * Xᵀ · residual`, the intercept gradient
`(2 * learning_rate / N) * sum(residual)`, and updating the parameters by
plain subtraction of these gradients (the learning rate is not applied a
second time): the result is the `iterations`-fold iterate of `gdStepClaim`
from the random initial parameters. -/
theorem claim_C2 (rand0 : ℚ) (rand : ℕ → ℚ) (self : LinearRegressor)
    (X : Mat) (y : Vec) (learning_rate : ℚ) (iterations : ℕ) (n : ℕ)
    (hrect : IsRect X n) (hX : X ≠ []) (hy : y.length = X.length) :
    fit_gradient_descent rand0 rand self X y learning_rate iterations =
      (let p := (gdStepClaim X y learning_rate)^[iterations]
          (rand0 * (1 / 100), (List.range n).map (fun j => rand j * (1 / 100)));
       ({ coefficients := some p.2, intercept := some p.1 }, .ok ())) := by
  simp only [fit_gradient_descent]
  rw [ncols_eq_of_rect hrect hX]
  rw [gdLoop_eq_iterate hrect hX hy iterations _ _ (by simp)]

/-- Witness for C2: one epoch on the 1×1 dataset `X = [[1]]`, `y = [2]`
with zero random initialisation and learning rate 1/2 lands on
parameters `(2, [2])`, as the iterate of the claimed update does. -/
theorem claim_C2_witness :
    fit_gradient_descent 0 (fun _ => 0) LinearRegressor.init [[1]] [2]
        (1 / 2) 1 =
      (let p := (gdStepClaim [[1]] [2] (1 / 2))^[1]
          (0 * (1 / 100), (List.range 1).map (fun _ => (0 : ℚ) * (1 / 100)));
       ({ coefficients := some p.2, intercept := some p.1 }, .ok ())) :=
  claim_C2 0 (fun _ => 0) LinearRegressor.init [[1]] [2] (1 / 2) 1 1
    (by decide) (by decide) (by decide)

theorem npMatMul_err {P Q : Mat} (h : ¬ ∀ r ∈ P, r.length = Q.length) :
    npMatMul P Q = .error "shapes not aligned" := by
  unfold npMatMul; rw [if_neg h]

theorem npSub_b1 {a b : Vec} (h1 : ¬ a.length = b.length)
    (h2 : b.length = 1) :
    npSub a b = .ok (a.map (fun x => x - b.headD 0)) := by
  unfold npSub; rw [if_neg h1, if_pos h2]

theorem isErr_exists {α : Type _} {e : Except String α}
    (h : isErr e = true) : ∃ msg, e = .error msg := by
  cases e with
  | error msg => exact ⟨msg, rfl⟩
  | ok a => exact absurd h (by simp [isErr])

/-- Whatever matrix the pseudo-inverse returns, `fit_multiple` raises when
the target length differs from the row count: either a `dot` shape check
fails or `theta_best` comes out empty and `theta_best[0]` raises. -/
theorem fit_multiple_shape_error (pinv : Mat → Mat) (X : Mat) (y : Vec)
    (h : ¬ y.length = X.length) :
    isErr (fit_multiple pinv X y) = true := by
  simp only [fit_multiple]
  rw [npMatMul_transpose_self, ok_bind]
  generalize pinv (matMulU (transpose (X.map fun r => (1 : ℚ) :: r))
    (X.map fun r => (1 : ℚ) :: r)) = M
  rcases M with _ | ⟨p, M2⟩
  · rw [npMatMul_ok (by simp), ok_bind]
    rw [show matMulU [] (transpose (X.map fun r => (1 : ℚ) :: r)) = []
      from rfl]
    rw [npDotMV_ok (by simp), ok_bind]
    rfl
  · by_cases hall : ∀ r ∈ p :: M2,
      r.length = (transpose (X.map fun r => (1 : ℚ) :: r)).length
    · rw [npMatMul_ok hall, ok_bind]
      rw [npDotMV_err ?hne, error_bind]
      · rfl
      case hne =>
        intro hall2
        have hmem : (transpose (transpose (X.map fun r => (1 : ℚ) :: r))).map
            (fun c => dotL p c) ∈
            matMulU (p :: M2) (transpose (X.map fun r => (1 : ℚ) :: r)) := by
          simp only [matMulU, List.map_cons]
          exact List.mem_cons_self _ _
        have hl := hall2 _ hmem
        rw [List.length_map, length_transpose, ncols_transpose_mapcons] at hl
        exact h hl.symm
    · rw [npMatMul_err hall, error_bind]
      rfl

/-- 2-D `predict` raises whenever the feature count differs from the
coefficient count. -/
theorem predict_shape_error {b : ℚ} {cs : Vec} {rows : Mat} {k : ℕ}
    (hrect : IsRect rows k) (hne : rows ≠ []) (hk : k ≠ cs.length) :
    isErr (predict ⟨some cs, some b⟩ (.mat rows)) = true := by
  show isErr (npDotMV (rows.map (fun r => 1 :: r)) (b :: cs)) = true
  rw [npDotMV_err ?hbad]
  · rfl
  case hbad =>
    intro hall
    obtain ⟨r, rows2, rfl⟩ := List.exists_cons_of_ne_nil hne
    have := hall (1 :: r) (by simp)
    simp only [List.length_cons] at this
    exact hk ((hrect r (List.mem_cons_self r rows2)).symm.trans
      (Nat.succ_injective this))

/-- One gradient-descent epoch on a length-1 target with more than one row:
`predictions - y` silently broadcasts, so the epoch succeeds despite the
shape mismatch. -/
theorem gdStep_broadcast1 {X : Mat} {y : Vec} {lr : ℚ} {n : ℕ} (b : ℚ)
    (cs : Vec) (hrect : IsRect X n) (hX : X ≠ []) (hy1 : y.length = 1)
    (hm : ¬ X.length = 1) (hcs : cs.length = n) :
    ∃ q : ℚ × Vec, gdStep X y lr b cs = .ok q ∧ q.2.length = n := by
  have hpred : ∀ r ∈ X, r.length = cs.length :=
    fun r hr => (hrect r hr).trans hcs.symm
  have h0 : ¬ X.length = 0 := fun h => hX (List.length_eq_zero.mp h)
  simp only [gdStep]
  rw [predict_mat_ok hpred, ok_bind]
  rw [npSub_b1 (by simpa [hy1] using hm) hy1, ok_bind]
  rw [if_neg h0]
  rw [npDotMV_ok (fun r hr => by rw [mem_transpose_length hr]; simp), ok_bind]
  rw [npSubIn_eq_len (by
    simp [length_transpose, ncols_eq_of_rect hrect hX, hcs])]
  rw [ok_bind]
  exact ⟨_, rfl, by
    simp [length_transpose, ncols_eq_of_rect hrect hX, hcs]⟩

/-- The whole gradient-descent loop succeeds in the broadcast situation of
`gdStep_broadcast1`. -/
theorem gdLoop_broadcast1 {X : Mat} {y : Vec} {lr : ℚ} {n : ℕ}
    (hrect : IsRect X n) (hX : X ≠ []) (hy1 : y.length = 1)
    (hm : ¬ X.length = 1) :
    ∀ (it : ℕ) (b : ℚ) (cs : Vec), cs.length = n →
      (gdLoop X y lr it (b, cs)).2 = .ok () := by
  intro it
  induction it with
  | zero => intro b cs _; rfl
  | succ k ih =>
    intro b cs hcs
    obtain ⟨q, hq, hqlen⟩ := gdStep_broadcast1 b cs hrect hX hy1 hm hcs
    simp only [gdLoop]
    rw [hq]
    show (gdLoop X y lr k q).2 = .ok ()
    rcases q with ⟨b2, cs2⟩
    exact ih b2 cs2 hqlen

/-- `fit(..., method="gradient_descent")` returns normally on a length-1
target however many rows `X` has: the shape mismatch is never validated. -/
theorem fit_gd_broadcast1 (pinv : Mat → Mat) (rand0 : ℚ) (rand : ℕ → ℚ)
    (self : LinearRegressor) (X : Mat) (y : Vec) (lr : ℚ) (it : ℕ) (n : ℕ)
    (hrect : IsRect X n) (hX : X ≠ []) (hy1 : y.length = 1)
    (hm : ¬ X.length = 1) :
    (fit pinv rand0 rand self (.mat X) y "gradient_descent" lr it).2 =
      .ok () := by
  unfold fit
  rw [if_neg (by decide :
    ¬ ("gradient_descent" : String) ∉ ["least_squares", "gradient_descent"])]
  rw [if_neg (by decide : ¬ ("gradient_descent" : String) = "least_squares")]
  show (fit_gradient_descent rand0 rand self X y lr it).2 = .ok ()
  simp only [fit_gradient_descent]
  rw [ncols_eq_of_rect hrect hX]
  exact gdLoop_broadcast1 hrect hX hy1 hm it _ _ (by simp)

/-- Claim C3 (amended): shape agreement is not validated up front, and
mismatches do not uniformly fail.  What does hold: (a) in the
least-squares path a fit whose target length differs from the row count
raises (inside numpy's `dot`) and leaves the estimator untouched, and
(b) 2-D `predict` raises when the feature count differs from the
coefficient count. -/
theorem claim_C3 :
    (∀ (pinv : Mat → Mat) (rand0 : ℚ) (rand : ℕ → ℚ)
        (self : LinearRegressor) (X : Mat) (y : Vec) (lr : ℚ) (it : ℕ),
      ¬ y.length = X.length →
        (fit pinv rand0 rand self (.mat X) y "least_squares" lr it).1
            = self ∧
        isErr (fit pinv rand0 rand self (.mat X) y "least_squares" lr it).2
            = true) ∧
    (∀ (b : ℚ) (cs : Vec) (rows : Mat) (k : ℕ),
      IsRect rows k → rows ≠ [] → k ≠ cs.length →
        isErr (predict ⟨some cs, some b⟩ (.mat rows)) = true) := by
  constructor
  · intro pinv rand0 rand self X y lr it h
    obtain ⟨msg, hmsg⟩ := isErr_exists (fit_multiple_shape_error pinv X y h)
    unfold fit
    rw [if_neg (by decide :
      ¬ ("least_squares" : String) ∉ ["least_squares", "gradient_descent"])]
    rw [if_pos rfl]
    simp only [reshapeInput]
    rw [hmsg]
    exact ⟨rfl, rfl⟩
  · intro b cs rows k hrect hne hk
    exact predict_shape_error hrect hne hk

/-- Witness for C3 (amended): a concrete mismatched least-squares fit
raises and preserves the state, and a concrete mismatched 2-D predict
raises. -/
theorem claim_C3_witness :
    ((fit pinvId 0 randZ LinearRegressor.init (.mat [[1]]) [1, 2]
        "least_squares" (1 / 100) 1).1 = LinearRegressor.init ∧
      isErr (fit pinvId 0 randZ LinearRegressor.init (.mat [[1]]) [1, 2]
        "least_squares" (1 / 100) 1).2 = true) ∧
    isErr (predict ⟨some [2], some 0⟩ (.mat [[1, 1]])) = true :=
  ⟨claim_C3.1 pinvId 0 randZ LinearRegressor.init [[1]] [1, 2] (1 / 100) 1
      (by decide),
   claim_C3.2 0 [2] [[1, 1]] 2 (by decide) (by decide) (by decide)⟩

/-- Counterexample to C3 as stated: a `fit` call whose row count (2)
differs from the target length (1) succeeds (gradient descent broadcasts
the length-1 `y`), and a `predict` call whose feature count (1) differs
from the fitted coefficient count (2) succeeds (the 1-D path never checks
the coefficient count). -/
theorem claim_C3_counterexample :
    ((([5] : Vec).length ≠ ([[1], [1]] : Mat).length ∧
      (fit pinvId 0 randZ LinearRegressor.init (.mat [[1], [1]]) [5]
          "gradient_descent" (1 / 100) 1).2 = .ok ())) ∧
    (([2, 3] : Vec).length ≠ 1 ∧
      predict ⟨some [2, 3], some 1⟩ (.vec [4]) = .ok [9]) := by
  refine ⟨⟨by decide, ?_⟩, ⟨by decide, ?_⟩⟩
  · exact fit_gd_broadcast1 pinvId 0 randZ LinearRegressor.init [[1], [1]]
      [5] (1 / 100) 1 1 (by decide) (by decide) (by decide) (by decide)
  · show Except.ok ([4].map (fun x => (1 : ℚ) + 2 * x)) = Except.ok [9]
    norm_num

/-- Claim C4 (the code at the failing input): `fit` via gradient descent on
`X = [[1]]`, `y = [0]`, `learning_rate = 1/100`, `iterations = 1` — the
caller-observable outcome is exactly the parameter fields `coefficients`
and `intercept` of the estimator plus the `None` return; the per-epoch MSE
trace and per-iteration parameter trace accumulated in the method's local
`history`/`training_history` dicts are only printed and plotted and appear
nowhere in this result. -/
theorem claim_C4 :
    fit pinvId 0 randZ LinearRegressor.init (.mat [[1]]) [0]
        "gradient_descent" (1 / 100) 1 =
      ({ coefficients := some [0], intercept := some 0 }, .ok ()) := by
  have hloop := @gdLoop_eq_iterate [[1]] [0] (1 / 100) 1
    (by decide) (by decide) (by decide) 1 (0 * (1 / 100))
    ((List.range 1).map (fun j => randZ j * (1 / 100))) (by simp)
  unfold fit
  rw [if_neg (by decide :
    ¬ ("gradient_descent" : String) ∉ ["least_squares", "gradient_descent"])]
  rw [if_neg (by decide : ¬ ("gradient_descent" : String) = "least_squares")]
  show fit_gradient_descent 0 randZ LinearRegressor.init [[1]] [0]
    (1 / 100) 1 = _
  simp only [fit_gradient_descent]
  rw [show ncols [[(1 : ℚ)]] = 1 from rfl, hloop]
  norm_num [gdStepClaim, transpose, ncols, dotL, randZ,
    show List.range 1 = [0] from rfl]

/-- Claim C5 (amended): for every `y` whose values are not all equal
(`ss_tot ≠ 0`), `evaluate_regression(y, y)` returns R² = 1.0, RMSE = 0.0
(the returned RMSE is the square root of the stored radicand, and
√0 = 0) and MAE = 0.0.  For constant `y` the division `ss_res / ss_tot`
is 0/0 and R² is NaN, not 1.0 — see the counterexample. -/
theorem claim_C5 (y : Vec) (h : ss_tot y ≠ 0) :
    evaluate_regression y y =
      .ok { R2 := some 1, RMSE_sq := 0, MAE := 0 } ∧
    Real.sqrt ((0 : ℚ) : ℝ) = 0 := by
  refine ⟨?_, by simp⟩
  simp only [evaluate_regression]
  rw [npSub_eq_len rfl, ok_bind, zipWith_sub_self]
  simp [List.map_map, Function.comp, sum_map_zero, npDivF, h, mean,
    pure_eq_ok]

/-- Counterexample to C5 as stated: on the constant vector `y = [1, 1]`
(a perfectly legitimate numeric vector), `evaluate_regression(y, y)`
divides by a zero `ss_tot` and returns a NaN R², not 1.0. -/
theorem claim_C5_counterexample :
    evaluate_regression [1, 1] [1, 1] =
      .ok { R2 := none, RMSE_sq := 0, MAE := 0 } ∧
    evaluate_regression [1, 1] [1, 1] ≠
      .ok { R2 := some 1, RMSE_sq := 0, MAE := 0 } := by
  have h : evaluate_regression [1, 1] [1, 1] =
      .ok { R2 := none, RMSE_sq := 0, MAE := 0 } := by
    simp only [evaluate_regression]
    rw [npSub_eq_len rfl, ok_bind, zipWith_sub_self]
    norm_num [ss_tot, mean, npDivF, sum_map_zero, pure_eq_ok]
  refine ⟨h, by rw [h]; simp⟩

/-- Witness for C5: the non-constant vector `y = [0, 1]` satisfies the
hypothesis and realises the zero-error identity case. -/
theorem claim_C5_witness :
    ss_tot [0, 1] ≠ 0 ∧
    (evaluate_regression [0, 1] [0, 1] =
        .ok { R2 := some 1, RMSE_sq := 0, MAE := 0 } ∧
      Real.sqrt ((0 : ℚ) : ℝ) = 0) := by
  have h : ss_tot [0, 1] ≠ 0 := by norm_num [ss_tot, mean]
  exact ⟨h, claim_C5 [0, 1] h⟩

theorem insertSorted_b_a :
    insertSorted "b" ["a"] = ["a", "b"] := by
  have hba : ¬ ("b" : String) < "a" := by
    rw [String.lt_iff_toList_lt]; decide
  unfold insertSorted
  rw [if_neg hba, if_neg (by decide : ¬ ("b" : String) = "a")]
  rfl

theorem insertSorted_a_ab :
    insertSorted "a" ["a", "b"] = ["a", "b"] := by
  have haa : ¬ ("a" : String) < "a" := by
    rw [String.lt_iff_toList_lt]; decide
  unfold insertSorted
  rw [if_neg haa, if_pos rfl]

theorem npUnique_aba : npUnique ["a", "b", "a"] = ["a", "b"] := by
  show insertSorted "a" (insertSorted "b" (insertSorted "a" [])) = _
  rw [show insertSorted "a" ([] : List String) = ["a"] from rfl,
    insertSorted_b_a, insertSorted_a_ab]

/-- Evaluation helper: `one_hot_encode` on a single categorical column,
once `np.unique` of that column is known. -/
theorem ohe_single_cat (X : List (List String)) (cats : List String)
    (df : Bool) (hn : ncols X = 1)
    (hcats : npUnique (columnOf X 0) = cats) :
    one_hot_encode (fun _ => (0 : ℚ)) X [0] df =
      np_column_stack ((if df then cats.tail else cats).map (fun c =>
        (columnOf X 0).map (fun v => if v = c then (1 : ℚ) else 0))) := by
  simp only [one_hot_encode, hn]
  rw [show List.range 1 = [0] from rfl]
  simp only [List.flatMap_cons, List.flatMap_nil, List.append_nil]
  rw [if_pos (show (0 : ℕ) ∈ [0] from by decide), hcats]
  refine congrArg np_column_stack (List.map_congr_left fun c _ => ?_)
  refine List.map_congr_left fun v _ => ?_
  by_cases h : v = c
  · rw [if_pos h, if_pos h]
  · rw [if_neg h, if_neg h]

/-- Claim C6: `one_hot_encode` processes columns left to right with output
columns interleaved at their original positions — a categorical column
becomes one 1.0/0.0 indicator column per distinct value in sorted order
(dropping the smallest value's column when `drop_first`), a
non-categorical column is emitted cast to numeric unchanged (the
refinement of the source function by the spec-worded
`one_hot_encode_spec`); and on the column `["a","b","a"]` the encoding is
`[1,0,1]`, `[0,1,0]` without `drop_first` and only `[0,1,0]` with it. -/
theorem claim_C6 :
    (∀ (α : Type) [Inhabited α] [LinearOrder α] (toNum : α → ℚ)
        (X : List (List α)) (ci : List ℕ) (df : Bool),
      one_hot_encode toNum X ci df = one_hot_encode_spec toNum X ci df) ∧
    one_hot_encode (fun _ => (0 : ℚ)) [["a"], ["b"], ["a"]] [0] false =
      [[1, 0], [0, 1], [1, 0]] ∧
    one_hot_encode (fun _ => (0 : ℚ)) [["a"], ["b"], ["a"]] [0] true =
      [[0], [1], [0]] := by
  refine ⟨?_, ?_, ?_⟩
  · intro α _ _ toNum X ci df
    simp only [one_hot_encode, one_hot_encode_spec, List.flatMap_def]
  · rw [ohe_single_cat [["a"], ["b"], ["a"]] ["a", "b"] false rfl
      npUnique_aba]
    decide
  · rw [ohe_single_cat [["a"], ["b"], ["a"]] ["a", "b"] true rfl
      npUnique_aba]
    decide

end Lab24
